import Mathlib

/-!
Verification development for the node-gpt-cli interactive chat client
(src/gpt.js).  The JavaScript source is shallowly embedded: file contents
are lists of characters (`Str`), JavaScript numbers appearing in tool
arguments are rationals (`ℚ`, so that non-integer inputs are expressible),
fallible code returns `Except String`, and the interactive prompts
(yes/no questions asked of the user) become boolean parameters.  Each
definition is translated from the corresponding place in src/gpt.js,
indicated by line numbers in the doc comments.
-/

/-- A JavaScript string, embedded as its list of characters. -/
abbrev Str := List Char

/-- JavaScript `s.split('\n')`: splits a string into its lines at every
newline character.  The empty string splits into one empty line, matching
JS where `''.split('\n')` is `['']`. -/
def splitNl : Str → List Str
  | [] => [[]]
  | c :: cs =>
    if c = '\n' then [] :: splitNl cs
    else
      match splitNl cs with
      | [] => [[c]]
      | l :: ls => (c :: l) :: ls

/-- JavaScript `lines.join('\n')`: interleaves a newline between the lines. -/
def joinNl : List Str → Str
  | [] => []
  | [l] => l
  | l :: ls => l ++ '\n' :: joinNl ls

theorem splitNl_ne_nil (s : Str) : splitNl s ≠ [] := by
  induction s with
  | nil => simp [splitNl]
  | cons c cs ih =>
    simp only [splitNl]
    split
    · simp
    · split
      · simp
      · simp

theorem joinNl_cons_cons (l a : Str) (ls : List Str) :
    joinNl (l :: a :: ls) = l ++ '\n' :: joinNl (a :: ls) := by
  rfl

theorem joinNl_splitNl (s : Str) : joinNl (splitNl s) = s := by
  induction s with
  | nil => simp [splitNl, joinNl]
  | cons c cs ih =>
    simp only [splitNl]
    split
    · rename_i hc
      subst hc
      rcases h : splitNl cs with _ | ⟨a, as⟩
      · exact absurd h (splitNl_ne_nil cs)
      · rw [h] at ih
        rw [joinNl_cons_cons]
        simp [ih]
    · rcases h : splitNl cs with _ | ⟨a, as⟩
      · exact absurd h (splitNl_ne_nil cs)
      · rw [h] at ih
        rcases as with _ | ⟨b, bs⟩
        · simpa [joinNl] using congrArg (c :: ·) ih
        · rw [joinNl_cons_cons] at ih ⊢
          simpa using congrArg (c :: ·) ih

theorem noNl_of_mem_splitNl (s : Str) (l : Str) (h : l ∈ splitNl s) : '\n' ∉ l := by
  induction s generalizing l with
  | nil =>
    simp [splitNl] at h
    simp [h]
  | cons c cs ih =>
    simp only [splitNl] at h
    by_cases hc : c = '\n'
    · simp [hc] at h
      rcases h with h | h
      · simp [h]
      · exact ih l h
    · simp [hc] at h
      rcases hsplit : splitNl cs with _ | ⟨a, as⟩
      · exact absurd hsplit (splitNl_ne_nil cs)
      · rw [hsplit] at h
        simp at h
        rcases h with h | h
        · subst h
          intro hmem
          rcases List.mem_cons.mp hmem with h1 | h1
          · exact hc h1.symm
          · exact ih a (by rw [hsplit]; exact List.mem_cons_self a as) h1
        · exact ih l (by rw [hsplit]; exact List.mem_cons_of_mem a h)

theorem splitNl_of_noNl (l : Str) (h : '\n' ∉ l) : splitNl l = [l] := by
  induction l with
  | nil => rfl
  | cons c cs ih =>
    have hc : c ≠ '\n' := by
      intro hc
      exact h (by simp [hc])
    have hcs : '\n' ∉ cs := fun hm => h (List.mem_cons_of_mem c hm)
    simp only [splitNl, if_neg hc, ih hcs]

theorem splitNl_append_newline (l t : Str) (h : '\n' ∉ l) :
    splitNl (l ++ '\n' :: t) = l :: splitNl t := by
  induction l with
  | nil => simp [splitNl]
  | cons c cs ih =>
    have hc : c ≠ '\n' := by
      intro hc
      exact h (by simp [hc])
    have hcs : '\n' ∉ cs := fun hm => h (List.mem_cons_of_mem c hm)
    have := ih hcs
    simp only [List.cons_append, splitNl, if_neg hc, List.append_eq, this]

theorem splitNl_joinNl (L : List Str) (hne : L ≠ [])
    (hnl : ∀ l ∈ L, '\n' ∉ l) : splitNl (joinNl L) = L := by
  induction L with
  | nil => exact absurd rfl hne
  | cons l ls ih =>
    rcases ls with _ | ⟨a, as⟩
    · simpa [joinNl] using splitNl_of_noNl l (hnl l (by simp))
    · rw [joinNl_cons_cons]
      rw [splitNl_append_newline l _ (hnl l (by simp))]
      rw [ih (by simp) (fun x hx => hnl x (List.mem_cons_of_mem l hx))]

/-- JavaScript Number.isInteger, on the rational embedding of a JS number. -/
def isIntegerNum (q : ℚ) : Bool := q.den == 1

/-- Conversion of an integer-valued, non-negative JS number to its Nat value
(used after the code's own integer/range checks have passed). -/
def qToNat (q : ℚ) : Nat := q.num.toNat

/-- One structured patch operation, as dispatched on the lowercased `op`
field at src/gpt.js lines 737-773.  `other` stands for any unrecognized
kind string. -/
inductive PatchOp where
  | replace_range (startLine endLine : ℚ) (newContent : Str)
  | insert_at (line : ℚ) (position : Option String) (newContent : Str)
  | replace_regex (pattern flags : String) (newContent : Str)
  | append (newContent : Str)
  | prepend (newContent : Str)
  | other (kind : String)

/-- The semantics of one JS regular-expression substitution
(`new RegExp(pattern, flags)` then `content.replace(re, repl)`); the regex
engine is external to this development, so it is passed in abstractly.  An
invalid pattern corresponds to an `Except.error`. -/
abbrev RegexSem := String → String → Str → Str → Except String Str

/-- One iteration of the `applyOps` loop body at src/gpt.js lines 737-774:
evaluates a single patch operation on the current content, throwing
(`Except.error`) exactly where the JS throws. -/
def evalOp (regexSem : RegexSem) (content : Str) : PatchOp → Except String Str
  | .replace_range s e nc =>
    if !(isIntegerNum s) || !(isIntegerNum e) || decide (s < 1) || decide (e < s) then
      .error "Invalid startLine/endLine"
    else
      let lines := splitNl content
      let pre := lines.take (qToNat s - 1)
      let post := lines.drop (qToNat e)
      let midLines := if nc.isEmpty then [] else splitNl nc
      .ok (joinNl (pre ++ midLines ++ post))
  | .insert_at line pos nc =>
    if !(isIntegerNum line) || decide (line < 1) then
      .error "Invalid line"
    else
      let lines := splitNl content
      let p := (pos.getD "before").toLower
      let idx := if p == "after" then qToNat line else qToNat line - 1
      let addLines := splitNl nc
      .ok (joinNl (lines.take idx ++ addLines ++ lines.drop idx))
  | .replace_regex pat flags nc => regexSem pat flags nc content
  | .append nc => .ok (content ++ nc)
  | .prepend nc => .ok (nc ++ content)
  | .other kind => .error ("Unsupported op: " ++ kind)

/-- The `applyOps` closure of src/gpt.js lines 736-775: applies the
operations strictly in order, each on the result of the previous one;
the first failing operation aborts the whole batch. -/
def applyOps (regexSem : RegexSem) : List PatchOp → Str → Except String Str
  | [], content => .ok content
  | op :: ops, content =>
    match evalOp regexSem content op with
    | .error e => .error e
    | .ok content' => applyOps regexSem ops content'

/-- The kind of a cached file permission ('read' or 'write' in the JS). -/
inductive PermKind where
  | read
  | write
deriving DecidableEq

/-- The in-session permission cache of src/gpt.js line 548:
two sets of absolute paths, one per kind (modelled as lists; only
membership is ever observed). -/
structure PermCache where
  read : List String
  write : List String
deriving DecidableEq

/-- src/gpt.js line 549: `hasPerm(kind, absPath)`. -/
def hasPerm (c : PermCache) : PermKind → String → Bool
  | .read, p => c.read.contains p
  | .write, p => c.write.contains p

/-- src/gpt.js line 550: `grantPerm(kind, absPath)` adds the path to the
kind's set (Set.add: a no-op when already present). -/
def grantPerm (c : PermCache) : PermKind → String → PermCache
  | .read, p => if c.read.contains p then c else { c with read := p :: c.read }
  | .write, p => if c.write.contains p then c else { c with write := p :: c.write }

/-- The diff preview configuration (src/gpt.js line 86).  The numeric
fields are JS numbers holding integers; `Int` keeps session-loaded
negative values representable. -/
structure DiffPreviewConfig where
  enabled : Bool
  thresholdLines : Int
  maxLines : Int
deriving DecidableEq

/-- The startup defaults of src/gpt.js line 86:
`{ enabled: true, thresholdLines: 0, maxLines: 400 }`. -/
def defaultDiffPreview : DiffPreviewConfig :=
  { enabled := true, thresholdLines := 0, maxLines := 400 }

/-- The changed-line estimate shared by `countChangedLines`
(src/gpt.js lines 551-562) and the inline loop of
`maybePreviewAndConfirmDiff` (lines 512-516): split both texts on
newlines and count the 0-based positions, up to the longer length, where
the sides differ (`A[i] !== B[i]`, a missing side being `undefined`). -/
def countChangedLines (a b : Str) : Nat :=
  let A := splitNl a
  let B := splitNl b
  (List.range (max A.length B.length)).countP (fun i => A[i]? != B[i]?)

/-- The spec's definition of changed-line count, stated independently of
the code: a structural simultaneous walk over the two line sequences in
which a missing line on the shorter side counts as differing. -/
def diffCount : List Str → List Str → Nat
  | [], [] => 0
  | [], _ :: bs => 1 + diffCount [] bs
  | _ :: as, [] => 1 + diffCount as []
  | a :: as, b :: bs => (if a = b then 0 else 1) + diffCount as bs

/-- Changed-line count as the spec words it, built on `diffCount`. -/
def specChangedLines (a b : Str) : Nat := diffCount (splitNl a) (splitNl b)

/-- The outcome of the diff-preview decision
(`maybePreviewAndConfirmDiff`, src/gpt.js lines 510-535): whether to
proceed, the changed-line estimate, and whether the user was shown the
diff and prompted. -/
structure DiffDecision where
  proceed : Bool
  changed : Nat
  prompted : Bool
deriving DecidableEq

/-- src/gpt.js lines 510-535: `maybePreviewAndConfirmDiff`.  `hasDiffLib`
models whether the lazily imported diff renderer is available
(`createTwoFilesPatchFn`), and `answer` the user's eventual yes/no reply
to the confirmation prompt. -/
def maybePreviewAndConfirmDiff (cfg : DiffPreviewConfig) (hasDiffLib : Bool)
    (answer : Bool) (before after : Str) : DiffDecision :=
  let changed := countChangedLines before after
  if !cfg.enabled || decide ((changed : Int) < cfg.thresholdLines) || !hasDiffLib then
    { proceed := true, changed := changed, prompted := false }
  else
    { proceed := answer, changed := changed, prompted := true }

/-- The in-memory file store backing the file tools: an association of
absolute paths to file contents. -/
abbrev FS := List (String × Str)

/-- Reading a file from the store (`fs.readFileSync`); `none` when the
path does not exist. -/
def fsRead (fs : FS) (p : String) : Option Str :=
  (fs.find? (fun e => e.1 == p)).map (fun e => e.2)

/-- Writing a file into the store (`fs.writeFileSync`): replaces the
content at the path, or creates the entry. -/
def fsWrite : FS → String → Str → FS
  | [], p, c => [(p, c)]
  | e :: rest, p, c => if e.1 == p then (p, c) :: rest else e :: fsWrite rest p c

/-- The structured payload a tool call returns (the JSON strings the JS
builds, typed): success (with `changedLines` for patch_file), the
diff-rejected abort, or an error message. -/
inductive ToolResult where
  | ok (changedLines : Option Nat)
  | aborted
  | error (msg : String)
deriving DecidableEq

/-- Everything observable about one file-tool call: the file store and
permission cache afterwards, whether a permission prompt was issued,
whether the prior-permission notice was shown, whether the diff preview
prompted, and the result payload. -/
structure ToolOutcome where
  fs : FS
  cache : PermCache
  promptedPerm : Bool
  usedPriorPerm : Bool
  promptedDiff : Bool
  result : ToolResult
deriving DecidableEq

/-- The observable outcome of a `run_command` tool call
(src/gpt.js lines 565-600).  The spawned process itself is external; the
model records whether the user was prompted, whether the command was
executed, the timeout timer that was armed (in milliseconds; `none` when
no timer is set), and the signal its expiry handler sends. -/
structure RunCommandOutcome where
  cache : PermCache
  prompted : Bool
  executed : Bool
  timer : Option ℚ
  killSignalOnTimeout : Option String
  result : ToolResult
deriving DecidableEq

/-- src/gpt.js lines 565-600: the `run_command` case of `runLocalTool`.
Line 567 prompts unconditionally — the permission cache is neither
consulted nor updated.  Line 575 computes the effective timeout
`Math.min(Math.max(Number(args?.timeoutMs) || 0, 0), 600000)` (an absent
argument becomes 0); lines 577-580 arm a timer only when it is positive,
and the timer's handler kills the child with SIGKILL. -/
def run_command (cache : PermCache) (cmd : String) (timeoutMs : Option ℚ)
    (answer : Bool) : RunCommandOutcome :=
  if !answer then
    { cache := cache, prompted := true, executed := false, timer := none,
      killSignalOnTimeout := none,
      result := .error "Permission denied by user." }
  else
    let eff := min (max (timeoutMs.getD 0) 0) 600000
    { cache := cache, prompted := true, executed := true,
      timer := if 0 < eff then some eff else none,
      killSignalOnTimeout := if 0 < eff then some "SIGKILL" else none,
      result := .ok none }

/-- The body of the `write_file` case after the permission gate
(src/gpt.js lines 691-716): read the previous content if the file
exists, run the diff gate only over existing content, and write the full
new content unless the diff was rejected. -/
def write_fileBody (fs : FS) (cache : PermCache) (cfg : DiffPreviewConfig)
    (hasDiffLib : Bool) (p : String) (content : Str) (diffAnswer : Bool)
    (usedPrior promptedPerm : Bool) : ToolOutcome :=
  match fsRead fs p with
  | some before =>
    let d := maybePreviewAndConfirmDiff cfg hasDiffLib diffAnswer before content
    if d.proceed then
      { fs := fsWrite fs p content, cache := cache, promptedPerm := promptedPerm,
        usedPriorPerm := usedPrior, promptedDiff := d.prompted, result := .ok none }
    else
      { fs := fs, cache := cache, promptedPerm := promptedPerm,
        usedPriorPerm := usedPrior, promptedDiff := d.prompted, result := .aborted }
  | none =>
    { fs := fsWrite fs p content, cache := cache, promptedPerm := promptedPerm,
      usedPriorPerm := usedPrior, promptedDiff := false, result := .ok none }

/-- src/gpt.js lines 682-717: the `write_file` case of `runLocalTool`.
Lines 684-689: a cached write permission skips the prompt (with the
prior-permission notice); otherwise the user is prompted and, on yes, the
permission is granted and cached before anything else happens. -/
def write_file (fs : FS) (cache : PermCache) (cfg : DiffPreviewConfig)
    (hasDiffLib : Bool) (p : String) (content : Str)
    (permAnswer diffAnswer : Bool) : ToolOutcome :=
  if hasPerm cache .write p then
    write_fileBody fs cache cfg hasDiffLib p content diffAnswer true false
  else if permAnswer then
    write_fileBody fs (grantPerm cache .write p) cfg hasDiffLib p content diffAnswer
      false true
  else
    { fs := fs, cache := cache, promptedPerm := true, usedPriorPerm := false,
      promptedDiff := false, result := .error "Permission denied by user." }

/-- The body of the `patch_file` case after the permission gate
(src/gpt.js lines 729-788): the file must pre-exist, the operation list
must be non-empty, the operations are applied in memory, the diff gate
runs on the original versus patched text, and only then is the file
written.  Any thrown error becomes an error payload with the file left
untouched. -/
def patch_fileBody (regexSem : RegexSem) (fs : FS) (cache : PermCache)
    (cfg : DiffPreviewConfig) (hasDiffLib : Bool) (p : String)
    (ops : List PatchOp) (diffAnswer : Bool)
    (usedPrior promptedPerm : Bool) : ToolOutcome :=
  match fsRead fs p with
  | none =>
    { fs := fs, cache := cache, promptedPerm := promptedPerm,
      usedPriorPerm := usedPrior, promptedDiff := false,
      result := .error "File does not exist" }
  | some content =>
    if ops.isEmpty then
      { fs := fs, cache := cache, promptedPerm := promptedPerm,
        usedPriorPerm := usedPrior, promptedDiff := false,
        result := .error "No operations provided" }
    else
      match applyOps regexSem ops content with
      | .error e =>
        { fs := fs, cache := cache, promptedPerm := promptedPerm,
          usedPriorPerm := usedPrior, promptedDiff := false, result := .error e }
      | .ok newContent =>
        let d := maybePreviewAndConfirmDiff cfg hasDiffLib diffAnswer content newContent
        if d.proceed then
          { fs := fsWrite fs p newContent, cache := cache,
            promptedPerm := promptedPerm, usedPriorPerm := usedPrior,
            promptedDiff := d.prompted,
            result := .ok (some (countChangedLines content newContent)) }
        else
          { fs := fs, cache := cache, promptedPerm := promptedPerm,
            usedPriorPerm := usedPrior, promptedDiff := d.prompted,
            result := .aborted }

/-- src/gpt.js lines 718-789: the `patch_file` case of `runLocalTool`,
with the same write-permission gate as `write_file` (lines 720-726). -/
def patch_file (regexSem : RegexSem) (fs : FS) (cache : PermCache)
    (cfg : DiffPreviewConfig) (hasDiffLib : Bool) (p : String)
    (ops : List PatchOp) (permAnswer diffAnswer : Bool) : ToolOutcome :=
  if hasPerm cache .write p then
    patch_fileBody regexSem fs cache cfg hasDiffLib p ops diffAnswer true false
  else if permAnswer then
    patch_fileBody regexSem fs (grantPerm cache .write p) cfg hasDiffLib p ops
      diffAnswer false true
  else
    { fs := fs, cache := cache, promptedPerm := true, usedPriorPerm := false,
      promptedDiff := false, result := .error "Permission denied by user." }

/-- A todo item (src/gpt.js line 794): id, title, description, status. -/
structure TodoItem where
  id : Nat
  title : String
  description : String
  status : String
deriving DecidableEq

/-- The id assigned to a newly created todo item: src/gpt.js line 793
(`manage_todo` create) and line 960 (`/todo add`), both
`todoList.length ? Math.max(...todoList.map(t => t.id)) + 1 : 1`. -/
def nextId (todoList : List TodoItem) : Nat :=
  if todoList.isEmpty then 1 else (todoList.map (fun t => t.id)).foldr max 0 + 1

/-- src/gpt.js lines 792-799 / 971-979: creating a todo item appends it
with the freshly assigned id and status 'not-started'. -/
def todoCreate (todoList : List TodoItem) (title description : String) :
    List TodoItem :=
  todoList ++ [{ id := nextId todoList, title := title,
                 description := description, status := "not-started" }]

/-- src/gpt.js lines 824-832 / 1008-1017: deleting a todo item removes
the first item with the given id (`findIndex` + `splice`); an unknown id
leaves the list unchanged (the call reports 'Not found'). -/
def todoDelete (todoList : List TodoItem) (id : Nat) : List TodoItem :=
  todoList.eraseP (fun t => t.id == id)

/-- A create-or-delete step in the life of the todo list. -/
inductive TodoAction where
  | create (title description : String)
  | del (id : Nat)

/-- Running a sequence of create/delete steps over the todo list. -/
def runTodoActions : List TodoItem → List TodoAction → List TodoItem
  | l, [] => l
  | l, .create t d :: rest => runTodoActions (todoCreate l t d) rest
  | l, .del i :: rest => runTodoActions (todoDelete l i) rest

/-- A parsed JSON value, as `JSON.parse` produces it. -/
inductive JSValue where
  | null
  | bool (b : Bool)
  | num (q : ℚ)
  | str (s : String)
  | arr (elems : List JSValue)
  | obj (fields : List (String × JSValue))

/-- Property access on a parsed JSON object (`parsed.chatHistory` etc.);
`none` on a non-object or a missing key. -/
def lookupField (fields : List (String × JSValue)) (k : String) : Option JSValue :=
  (fields.find? (fun e => e.1 == k)).map (fun e => e.2)

/-- What session loading determines at startup: the conversation, the
todo list (both kept as raw parsed JSON values here), and the diff
preview configuration. -/
structure SessionInit where
  chatHistory : List JSValue
  todoList : List JSValue
  diffPreview : DiffPreviewConfig

/-- src/gpt.js lines 137-161: interpreting the persisted session file.
The argument is the outcome of `JSON.parse` on the file content, `none`
when reading or parsing threw (the catch branch).  A bare array is the
legacy format (conversation only); an object carries the three parts,
each field tolerated missing or ill-typed; anything else (a JSON
number, string, boolean or null) leaves the fresh defaults in place.
The integer checks mirror `Number.isInteger` on the numeric fields. -/
def loadSession : Option JSValue → SessionInit
  | none => { chatHistory := [], todoList := [], diffPreview := defaultDiffPreview }
  | some (.arr ms) =>
    { chatHistory := ms, todoList := [], diffPreview := defaultDiffPreview }
  | some (.obj fields) =>
    { chatHistory :=
        match lookupField fields "chatHistory" with
        | some (.arr ms) => ms
        | _ => []
      todoList :=
        match lookupField fields "todoList" with
        | some (.arr ts) => ts
        | _ => []
      diffPreview :=
        match lookupField fields "diffPreview" with
        | some (.obj dfs) =>
          { enabled :=
              match lookupField dfs "enabled" with
              | some (.bool b) => b
              | _ => defaultDiffPreview.enabled
            thresholdLines :=
              match lookupField dfs "thresholdLines" with
              | some (.num q) => if isIntegerNum q then q.num else defaultDiffPreview.thresholdLines
              | _ => defaultDiffPreview.thresholdLines
            maxLines :=
              match lookupField dfs "maxLines" with
              | some (.num q) => if isIntegerNum q then q.num else defaultDiffPreview.maxLines
              | _ => defaultDiffPreview.maxLines }
        | _ => defaultDiffPreview }
  | some _ => { chatHistory := [], todoList := [], diffPreview := defaultDiffPreview }

/-- One tool-call request carried by an assistant response
(`tc` in src/gpt.js lines 858-872). -/
structure ToolCallReq where
  id : String
  name : String
  argumentsJSON : String
deriving DecidableEq

/-- One conversation turn as kept in `chatHistory` (src/gpt.js
lines 866, 871, 879). -/
structure ChatMsg where
  role : String
  content : Option String
  tool_calls : List ToolCallReq
  tool_call_id : Option String
deriving DecidableEq

/-- The message part of one completion-transport response
(`completion.choices[0].message`, src/gpt.js line 855): optional text
plus the requested tool calls (`msg.tool_calls || []`). -/
structure ModelResponse where
  content : Option String
  tool_calls : List ToolCallReq

/-- JavaScript `x || null` on an optional string: an absent or empty
string becomes null. -/
def jsOrNull : Option String → Option String
  | none => none
  | some s => if s.isEmpty then none else some s

/-- src/gpt.js lines 864-872: processing the tool calls of one response
strictly in order: for each call, append an assistant message recording
that single call and a tool message carrying the tool's result.
`runTool` abstracts `runLocalTool` (tool name and raw argument JSON to
result payload string). -/
def runToolCalls (runTool : String → String → String) (respContent : Option String) :
    List ChatMsg → List ToolCallReq → List ChatMsg
  | hist, [] => hist
  | hist, tc :: rest =>
    runToolCalls runTool respContent
      (hist ++
        [{ role := "assistant", content := jsOrNull respContent,
           tool_calls := [tc], tool_call_id := none },
         { role := "tool", content := some (runTool tc.name tc.argumentsJSON),
           tool_calls := [], tool_call_id := some tc.id }]) rest

/-- The fuelled loop of `runModelWithTools` (src/gpt.js lines 843-884):
at most `fuel` further round-trips.  Each iteration asks the transport
for a completion (one round-trip); a response with tool calls records
and executes them all, then loops; a response without tool calls appends
the final assistant answer and stops.  Returns the conversation and the
number of round-trips performed. -/
def runModelWithToolsAux (transport : List ChatMsg → ModelResponse)
    (runTool : String → String → String) :
    Nat → List ChatMsg → List ChatMsg × Nat
  | 0, hist => (hist, 0)
  | fuel + 1, hist =>
    let resp := transport hist
    if resp.tool_calls.length > 0 then
      let hist' := runToolCalls runTool resp.content hist resp.tool_calls
      let r := runModelWithToolsAux transport runTool fuel hist'
      (r.1, r.2 + 1)
    else
      (hist ++
        [{ role := "assistant", content := some ((resp.content.getD "").trim),
           tool_calls := [], tool_call_id := none }], 1)

/-- src/gpt.js line 846: `for (let step = 0; step < 20; step++)` — the
agentic loop starts with fuel for exactly 20 round-trips. -/
def runModelWithTools (transport : List ChatMsg → ModelResponse)
    (runTool : String → String → String) (hist : List ChatMsg) :
    List ChatMsg × Nat :=
  runModelWithToolsAux transport runTool 20 hist

/-- A concrete regex semantics for witnesses and counterexamples: every
substitution fails (none of the inputs below contain a regex op, so the
choice is irrelevant). -/
def rsAbort : RegexSem := fun _ _ _ _ => Except.error "regex not modelled"

/-- C9: loading a session file whose content parses as a bare JSON array
adopts that array as the conversation with an empty todo list and the
default diff-preview configuration (src/gpt.js lines 141-143); content
that fails to parse yields a fresh, empty session instead of a startup
failure (the catch at lines 156-160 — `loadSession` is total, so startup
always succeeds). -/
theorem session_load_legacy_and_malformed (ms : List JSValue) :
    loadSession (some (JSValue.arr ms)) =
      { chatHistory := ms, todoList := [], diffPreview := defaultDiffPreview }
  ∧ loadSession none =
      { chatHistory := [], todoList := [], diffPreview := defaultDiffPreview } :=
  ⟨rfl, rfl⟩

/-- C4: a run_command invocation always issues the yes/no confirmation
prompt, whatever the permission cache holds — the cache is neither
consulted nor extended by shell execution (src/gpt.js lines 565-568), so
prior approvals of any kind never suppress the prompt; the command runs
exactly when the user answers yes. -/
theorem run_command_always_prompts (cache : PermCache) (cmd : String)
    (t : Option ℚ) (answer : Bool) :
    (run_command cache cmd t answer).prompted = true
  ∧ (run_command cache cmd t answer).cache = cache
  ∧ (run_command cache cmd t answer).executed = answer := by
  cases answer <;> simp [run_command]

/-- C7 counterexample: the claim says a supplied timeoutMs is clamped
into 100-600000 ms, so timeoutMs = 50 should become 100; the code's
clamp at src/gpt.js line 575 is `Math.min(Math.max(v, 0), 600000)`, so
the armed timer is 50 ms, not 100. -/
theorem run_command_timeout_claim_cex :
    (run_command { read := [], write := [] } "sleep 1" (some 50) true).timer = some 50
  ∧ min (max (50 : ℚ) 100) 600000 = 100
  ∧ (50 : ℚ) ≠ 100 := by
  refine ⟨?_, by norm_num, by norm_num⟩
  simp [run_command]
  norm_num

/-- C7 (amended): the effective timeout of a run_command invocation is
timeoutMs clamped into the range 0 to 600000 milliseconds (an absent or
non-positive value clamps to 0, which means no timer is armed at all);
when the effective timeout is positive and the command runs, a timer for
exactly that duration is armed whose expiry handler forcibly kills the
child with SIGKILL (src/gpt.js lines 575-580). -/
theorem run_command_timeout_clamp (cache : PermCache) (cmd : String)
    (t : Option ℚ) (answer : Bool) :
    (run_command cache cmd t answer).timer
      = (if answer && decide (0 < min (max (t.getD 0) 0) 600000)
          then some (min (max (t.getD 0) 0) 600000) else none)
  ∧ (run_command cache cmd t answer).killSignalOnTimeout
      = (if answer && decide (0 < min (max (t.getD 0) 0) 600000)
          then some "SIGKILL" else none)
  ∧ (0 : ℚ) ≤ min (max (t.getD 0) 0) 600000
  ∧ min (max (t.getD 0) 0) 600000 ≤ (600000 : ℚ) := by
  refine ⟨?_, ?_, le_min (le_max_right _ _) (by norm_num), min_le_right _ _⟩ <;>
    cases answer <;> simp [run_command]

theorem le_foldr_max (L : List Nat) (x : Nat) (hx : x ∈ L) :
    x ≤ L.foldr max 0 := by
  induction L with
  | nil => cases hx
  | cons hd tl ih =>
    rcases List.mem_cons.mp hx with h | h
    · subst h
      exact le_max_left _ _
    · exact le_trans (ih h) (le_max_right _ _)

/-- C8 counterexample: the claim says an id is never reused after
deletion, but deleting the item holding the maximum id and creating
again reassigns that id: after creating ids 1 and 2, deleting id 2 and
creating once more assigns `max([1]) + 1 = 2` again (src/gpt.js
line 793). -/
theorem todo_id_reuse_cex :
    (runTodoActions [] [.create "a" "", .create "b" ""]).map (fun t => t.id) = [1, 2]
  ∧ (runTodoActions [] [.create "a" "", .create "b" "", .del 2]).map (fun t => t.id) = [1]
  ∧ (runTodoActions [] [.create "a" "", .create "b" "", .del 2, .create "c" ""]).map
      (fun t => t.id) = [1, 2] := by
  refine ⟨?_, ?_, ?_⟩ <;> rfl

/-- C8 (amended): every todo creation assigns id `max(existing ids) + 1`
(1 on an empty list), which is strictly greater than the id of every
item currently in the list — so a creation never collides with a live
id, and in particular after creating ids 1,2,3 and deleting id 2 the
next creation assigns 4, never reusing 2.  (An id whose holder was
deleted can, however, be reassigned once no larger id remains, as the
counterexample shows.) -/
theorem todo_id_assignment (l : List TodoItem) (title desc : String) :
    (todoCreate l title desc).map (fun t => t.id) = l.map (fun t => t.id) ++ [nextId l]
  ∧ (∀ t ∈ l, t.id < nextId l)
  ∧ (runTodoActions [] [.create "a" "", .create "b" "", .create "c" ""]).map
      (fun t => t.id) = [1, 2, 3]
  ∧ (runTodoActions []
      [.create "a" "", .create "b" "", .create "c" "", .del 2, .create "d" ""]).map
      (fun t => t.id) = [1, 3, 4] := by
  refine ⟨by simp [todoCreate], ?_, rfl, rfl⟩
  intro t ht
  have hne : l.isEmpty = false := by
    cases l
    · cases ht
    · rfl
  have hmem : t.id ∈ l.map (fun t => t.id) := List.mem_map_of_mem _ ht
  have := le_foldr_max (l.map (fun t => t.id)) t.id hmem
  simp only [nextId, hne, Bool.false_eq_true, if_false]
  omega

theorem runModelWithToolsAux_le (transport : List ChatMsg → ModelResponse)
    (runTool : String → String → String) :
    ∀ fuel hist, (runModelWithToolsAux transport runTool fuel hist).2 ≤ fuel := by
  intro fuel
  induction fuel with
  | zero =>
    intro hist
    exact Nat.le_refl 0
  | succ n ih =>
    intro hist
    unfold runModelWithToolsAux
    dsimp only
    split
    · exact Nat.succ_le_succ (ih _)
    · exact Nat.succ_le_succ (Nat.zero_le n)

theorem runModelWithToolsAux_eq_of_always_tools
    (transport : List ChatMsg → ModelResponse)
    (runTool : String → String → String)
    (h : ∀ hist, (transport hist).tool_calls ≠ []) :
    ∀ fuel hist, (runModelWithToolsAux transport runTool fuel hist).2 = fuel := by
  intro fuel
  induction fuel with
  | zero =>
    intro hist
    rfl
  | succ n ih =>
    intro hist
    unfold runModelWithToolsAux
    dsimp only
    rw [if_pos (List.length_pos.mpr (h hist))]
    simp [ih]

/-- C2: the agentic loop never performs more than 20 request/response
round-trips, and against a transport that always returns at least one
tool-call request it terminates normally (the model is a total function,
so no error is raised) after exactly 20 round-trips — the
`for (let step = 0; step < 20; step++)` bound of src/gpt.js line 846
simply runs out. -/
theorem agent_loop_round_trip_cap (transport : List ChatMsg → ModelResponse)
    (runTool : String → String → String) (hist : List ChatMsg) :
    (runModelWithTools transport runTool hist).2 ≤ 20
  ∧ ((∀ h, (transport h).tool_calls ≠ []) →
      (runModelWithTools transport runTool hist).2 = 20) :=
  ⟨runModelWithToolsAux_le transport runTool 20 hist,
   fun h => runModelWithToolsAux_eq_of_always_tools transport runTool h 20 hist⟩

/-- A transport that answers every request with a single tool call and
never a final answer. -/
def constToolTransport : List ChatMsg → ModelResponse :=
  fun _ => { content := none,
             tool_calls := [{ id := "1", name := "t", argumentsJSON := "" }] }

/-- A trivial concrete tool runner. -/
def constRunTool : String → String → String := fun _ _ => "ok"

/-- C2 witness: at the concrete always-tool-calling transport, the loop
performs exactly 20 round-trips. -/
theorem agent_loop_round_trip_cap_witness :
    (runModelWithTools constToolTransport constRunTool []).2 ≤ 20
  ∧ (runModelWithTools constToolTransport constRunTool []).2 = 20 :=
  ⟨(agent_loop_round_trip_cap constToolTransport constRunTool []).1,
   (agent_loop_round_trip_cap constToolTransport constRunTool []).2
     (fun h => by simp [constToolTransport])⟩

theorem hasPerm_grantPerm_self (c : PermCache) (k : PermKind) (p : String) :
    hasPerm (grantPerm c k p) k p = true := by
  cases k <;> simp only [grantPerm, hasPerm] <;> split <;>
    simp_all [List.contains_cons]

theorem grantPerm_write_subset (c : PermCache) (p : String) :
    c.write ⊆ (grantPerm c .write p).write ∧ c.read ⊆ (grantPerm c .write p).read := by
  simp only [grantPerm]
  split
  · exact ⟨fun x hx => hx, fun x hx => hx⟩
  · exact ⟨List.subset_cons_self p c.write, fun x hx => hx⟩

theorem write_fileBody_fields (fs : FS) (cache : PermCache)
    (cfg : DiffPreviewConfig) (lib : Bool) (p : String) (c : Str)
    (da up pp : Bool) :
    (write_fileBody fs cache cfg lib p c da up pp).cache = cache
  ∧ (write_fileBody fs cache cfg lib p c da up pp).promptedPerm = pp
  ∧ (write_fileBody fs cache cfg lib p c da up pp).usedPriorPerm = up := by
  unfold write_fileBody
  cases fsRead fs p
  · exact ⟨rfl, rfl, rfl⟩
  · dsimp only
    split <;> exact ⟨rfl, rfl, rfl⟩

theorem patch_fileBody_fields (regexSem : RegexSem) (fs : FS) (cache : PermCache)
    (cfg : DiffPreviewConfig) (lib : Bool) (p : String) (ops : List PatchOp)
    (da up pp : Bool) :
    (patch_fileBody regexSem fs cache cfg lib p ops da up pp).cache = cache
  ∧ (patch_fileBody regexSem fs cache cfg lib p ops da up pp).promptedPerm = pp
  ∧ (patch_fileBody regexSem fs cache cfg lib p ops da up pp).usedPriorPerm = up := by
  unfold patch_fileBody
  cases fsRead fs p
  · exact ⟨rfl, rfl, rfl⟩
  · dsimp only
    split
    · exact ⟨rfl, rfl, rfl⟩
    · split
      · exact ⟨rfl, rfl, rfl⟩
      · split <;> exact ⟨rfl, rfl, rfl⟩

theorem write_file_gate_fields (fs : FS) (cache : PermCache)
    (cfg : DiffPreviewConfig) (lib : Bool) (p : String) (c : Str)
    (pa da : Bool) :
    (write_file fs cache cfg lib p c pa da).promptedPerm = !(hasPerm cache .write p)
  ∧ (write_file fs cache cfg lib p c pa da).usedPriorPerm = hasPerm cache .write p
  ∧ hasPerm (write_file fs cache cfg lib p c pa da).cache .write p
      = (hasPerm cache .write p || pa)
  ∧ cache.write ⊆ (write_file fs cache cfg lib p c pa da).cache.write
  ∧ cache.read ⊆ (write_file fs cache cfg lib p c pa da).cache.read := by
  unfold write_file
  by_cases hp : hasPerm cache .write p = true
  · rw [if_pos hp]
    obtain ⟨h1, h2, h3⟩ := write_fileBody_fields fs cache cfg lib p c da true false
    rw [h1, h2, h3, hp]
    exact ⟨rfl, rfl, by simp, fun x hx => hx, fun x hx => hx⟩
  · rw [if_neg hp]
    rw [Bool.not_eq_true] at hp
    cases pa
    · simp only [Bool.false_eq_true, if_false]
      rw [hp]
      exact ⟨rfl, rfl, by simp [hp], fun x hx => hx, fun x hx => hx⟩
    · simp only [if_true]
      obtain ⟨h1, h2, h3⟩ :=
        write_fileBody_fields fs (grantPerm cache .write p) cfg lib p c da false true
      rw [h1, h2, h3, hp]
      exact ⟨rfl, rfl, by simp [hasPerm_grantPerm_self],
             (grantPerm_write_subset cache p).1, (grantPerm_write_subset cache p).2⟩

theorem patch_file_gate_fields (regexSem : RegexSem) (fs : FS) (cache : PermCache)
    (cfg : DiffPreviewConfig) (lib : Bool) (p : String) (ops : List PatchOp)
    (pa da : Bool) :
    (patch_file regexSem fs cache cfg lib p ops pa da).promptedPerm
      = !(hasPerm cache .write p)
  ∧ (patch_file regexSem fs cache cfg lib p ops pa da).usedPriorPerm
      = hasPerm cache .write p
  ∧ hasPerm (patch_file regexSem fs cache cfg lib p ops pa da).cache .write p
      = (hasPerm cache .write p || pa)
  ∧ cache.write ⊆ (patch_file regexSem fs cache cfg lib p ops pa da).cache.write
  ∧ cache.read ⊆ (patch_file regexSem fs cache cfg lib p ops pa da).cache.read := by
  unfold patch_file
  by_cases hp : hasPerm cache .write p = true
  · rw [if_pos hp]
    obtain ⟨h1, h2, h3⟩ := patch_fileBody_fields regexSem fs cache cfg lib p ops da true false
    rw [h1, h2, h3, hp]
    exact ⟨rfl, rfl, by simp, fun x hx => hx, fun x hx => hx⟩
  · rw [if_neg hp]
    rw [Bool.not_eq_true] at hp
    cases pa
    · simp only [Bool.false_eq_true, if_false]
      rw [hp]
      exact ⟨rfl, rfl, by simp [hp], fun x hx => hx, fun x hx => hx⟩
    · simp only [if_true]
      obtain ⟨h1, h2, h3⟩ :=
        patch_fileBody_fields regexSem fs (grantPerm cache .write p) cfg lib p ops da false true
      rw [h1, h2, h3, hp]
      exact ⟨rfl, rfl, by simp [hasPerm_grantPerm_self],
             (grantPerm_write_subset cache p).1, (grantPerm_write_subset cache p).2⟩

/-- C5: within one process run, a write_file or patch_file call on a
path already holding a cached write permission does not prompt (and
shows the prior-permission notice, `usedPriorPerm`), a call on a path
not in the cache always prompts, a granted permission is present in the
cache afterwards exactly when it was already cached or the user said
yes, and tool operations only ever grow the cache (run_command touches
it not at all; the todo tools never receive it). -/
theorem write_permission_cache (fs : FS) (cache : PermCache)
    (cfg : DiffPreviewConfig) (lib : Bool) (p : String) (c : Str)
    (ops : List PatchOp) (regexSem : RegexSem) (cmd : String) (t : Option ℚ)
    (pa da ca : Bool) :
    (write_file fs cache cfg lib p c pa da).promptedPerm = !(hasPerm cache .write p)
  ∧ (write_file fs cache cfg lib p c pa da).usedPriorPerm = hasPerm cache .write p
  ∧ (patch_file regexSem fs cache cfg lib p ops pa da).promptedPerm
      = !(hasPerm cache .write p)
  ∧ (patch_file regexSem fs cache cfg lib p ops pa da).usedPriorPerm
      = hasPerm cache .write p
  ∧ hasPerm (write_file fs cache cfg lib p c pa da).cache .write p
      = (hasPerm cache .write p || pa)
  ∧ hasPerm (patch_file regexSem fs cache cfg lib p ops pa da).cache .write p
      = (hasPerm cache .write p || pa)
  ∧ cache.write ⊆ (write_file fs cache cfg lib p c pa da).cache.write
  ∧ cache.read ⊆ (write_file fs cache cfg lib p c pa da).cache.read
  ∧ cache.write ⊆ (patch_file regexSem fs cache cfg lib p ops pa da).cache.write
  ∧ cache.read ⊆ (patch_file regexSem fs cache cfg lib p ops pa da).cache.read
  ∧ (run_command cache cmd t ca).cache = cache := by
  obtain ⟨w1, w2, w3, w4, w5⟩ := write_file_gate_fields fs cache cfg lib p c pa da
  obtain ⟨q1, q2, q3, q4, q5⟩ := patch_file_gate_fields regexSem fs cache cfg lib p ops pa da
  refine ⟨w1, w2, q1, q2, w3, q3, w4, w5, q4, q5, ?_⟩
  cases ca <;> simp [run_command]

/-- C10: in write_file and patch_file the write permission is granted
and cached before the diff-preview decision and before any disk write
(src/gpt.js lines 683-689 and 719-726 precede lines 698-703 and
777-780).  Consequently, after a call in which the user approved the
permission prompt but the diff was rejected (`diffAnswer = false`; for
patch_file also after any failing operation list), the path is in the
write cache, and a later write or patch of the same path does not
prompt for permission again (it shows the prior-permission notice). -/
theorem grant_precedes_diff_and_write (fs : FS) (cache : PermCache)
    (cfg : DiffPreviewConfig) (lib : Bool) (p : String) (c c2 : Str)
    (ops ops2 : List PatchOp) (regexSem : RegexSem) (a1 a2 a3 a4 : Bool) :
    hasPerm (write_file fs cache cfg lib p c true false).cache .write p = true
  ∧ hasPerm (patch_file regexSem fs cache cfg lib p ops true false).cache .write p = true
  ∧ (write_file (write_file fs cache cfg lib p c true false).fs
      (write_file fs cache cfg lib p c true false).cache
      cfg lib p c2 a1 a2).promptedPerm = false
  ∧ (write_file (write_file fs cache cfg lib p c true false).fs
      (write_file fs cache cfg lib p c true false).cache
      cfg lib p c2 a1 a2).usedPriorPerm = true
  ∧ (patch_file regexSem (patch_file regexSem fs cache cfg lib p ops true false).fs
      (patch_file regexSem fs cache cfg lib p ops true false).cache
      cfg lib p ops2 a3 a4).promptedPerm = false := by
  have hw := (write_file_gate_fields fs cache cfg lib p c true false).2.2.1
  have hq := (patch_file_gate_fields regexSem fs cache cfg lib p ops true false).2.2.1
  rw [Bool.or_true] at hw hq
  refine ⟨hw, hq, ?_, ?_, ?_⟩
  · rw [(write_file_gate_fields _ _ cfg lib p c2 a1 a2).1, hw]
    rfl
  · rw [(write_file_gate_fields _ _ cfg lib p c2 a1 a2).2.1, hw]
  · rw [(patch_file_gate_fields regexSem _ _ cfg lib p ops2 a3 a4).1, hq]
    rfl

/-- A replace_range operation the Patch Engine rejects: a non-integer
startLine or endLine, startLine below 1 (so startLine = 0 in
particular), or endLine below startLine (src/gpt.js line 742). -/
def isBadRange : PatchOp → Bool
  | .replace_range s e _ =>
    !(isIntegerNum s) || !(isIntegerNum e) || decide (s < 1) || decide (e < s)
  | _ => false

theorem evalOp_badRange (regexSem : RegexSem) (c : Str) (op : PatchOp)
    (h : isBadRange op = true) :
    evalOp regexSem c op = Except.error "Invalid startLine/endLine" := by
  cases op with
  | replace_range s e nc =>
    simp only [isBadRange] at h
    simp [evalOp, h]
  | insert_at l pos nc => simp [isBadRange] at h
  | replace_regex pat fl nc => simp [isBadRange] at h
  | append nc => simp [isBadRange] at h
  | prepend nc => simp [isBadRange] at h
  | other k => simp [isBadRange] at h

theorem applyOps_error_of_bad (regexSem : RegexSem) (ops : List PatchOp)
    (op : PatchOp) (hmem : op ∈ ops) (hbad : isBadRange op = true) :
    ∀ c, ∃ msg, applyOps regexSem ops c = Except.error msg := by
  induction ops with
  | nil => cases hmem
  | cons hd tl ih =>
    intro c
    rcases List.mem_cons.mp hmem with h | h
    · refine ⟨"Invalid startLine/endLine", ?_⟩
      unfold applyOps
      rw [evalOp_badRange regexSem c hd (h ▸ hbad)]
    · unfold applyOps
      cases he : evalOp regexSem c hd
      · exact ⟨_, rfl⟩
      · exact ih h _

theorem patch_fileBody_bad (regexSem : RegexSem) (fs : FS) (cache : PermCache)
    (cfg : DiffPreviewConfig) (lib : Bool) (p : String) (ops : List PatchOp)
    (da up pp : Bool)
    (h : ∀ c, ∃ msg, applyOps regexSem ops c = Except.error msg) :
    (∃ msg, (patch_fileBody regexSem fs cache cfg lib p ops da up pp).result
        = ToolResult.error msg)
  ∧ (patch_fileBody regexSem fs cache cfg lib p ops da up pp).fs = fs := by
  unfold patch_fileBody
  cases hr : fsRead fs p with
  | none => exact ⟨⟨_, rfl⟩, rfl⟩
  | some content =>
    dsimp only
    by_cases he : ops.isEmpty
    · rw [if_pos he]
      exact ⟨⟨_, rfl⟩, rfl⟩
    · rw [if_neg he]
      obtain ⟨msg, hm⟩ := h content
      rw [hm]
      exact ⟨⟨msg, rfl⟩, rfl⟩

/-- C3: a patch_file call whose operation list contains a replace_range
with startLine = 0 (or any startLine < 1), endLine < startLine, or a
non-integer bound always returns an error payload and leaves the target
file exactly as it was — the batch aborts before any write (src/gpt.js
lines 739-744, 777-788).  The offending operation itself always
evaluates to the InvalidRange error 'Invalid startLine/endLine'; the
payload carries that message whenever the operations before it succeed
(an earlier operation failing first still yields an error payload and an
untouched file). -/
theorem invalid_range_rejection (regexSem : RegexSem) (fs : FS)
    (cache : PermCache) (cfg : DiffPreviewConfig) (lib : Bool) (p : String)
    (ops : List PatchOp) (pa da : Bool) (op : PatchOp)
    (hmem : op ∈ ops) (hbad : isBadRange op = true) :
    (∃ msg, (patch_file regexSem fs cache cfg lib p ops pa da).result
        = ToolResult.error msg)
  ∧ (patch_file regexSem fs cache cfg lib p ops pa da).fs = fs
  ∧ (∀ c, evalOp regexSem c op = Except.error "Invalid startLine/endLine") := by
  have hbatch := applyOps_error_of_bad regexSem ops op hmem hbad
  refine ⟨?_, ?_, fun c => evalOp_badRange regexSem c op hbad⟩
  · unfold patch_file
    by_cases hp : hasPerm cache .write p = true
    · rw [if_pos hp]
      exact (patch_fileBody_bad regexSem fs cache cfg lib p ops da true false hbatch).1
    · rw [if_neg hp]
      cases pa
      · exact ⟨_, rfl⟩
      · exact (patch_fileBody_bad regexSem fs (grantPerm cache .write p) cfg lib p ops da false true hbatch).1
  · unfold patch_file
    by_cases hp : hasPerm cache .write p = true
    · rw [if_pos hp]
      exact (patch_fileBody_bad regexSem fs cache cfg lib p ops da true false hbatch).2
    · rw [if_neg hp]
      cases pa
      · rfl
      · exact (patch_fileBody_bad regexSem fs (grantPerm cache .write p) cfg lib p ops da false true hbatch).2

/-- C3 witness: the single operation replace_range(0, 1, "") on an
existing one-byte file "f" is rejected with an error payload and the
file store is unchanged. -/
theorem invalid_range_rejection_witness :
    (PatchOp.replace_range 0 1 [] ∈ [PatchOp.replace_range 0 1 []])
  ∧ isBadRange (PatchOp.replace_range 0 1 []) = true
  ∧ (∃ msg, (patch_file rsAbort [("f", ['a'])] { read := [], write := [] }
      defaultDiffPreview true "f" [PatchOp.replace_range 0 1 []] true true).result
        = ToolResult.error msg)
  ∧ (patch_file rsAbort [("f", ['a'])] { read := [], write := [] }
      defaultDiffPreview true "f" [PatchOp.replace_range 0 1 []] true true).fs
        = [("f", ['a'])] := by
  refine ⟨List.mem_cons_self _ _, by decide, ?_, ?_⟩
  · exact (invalid_range_rejection rsAbort _ _ _ _ _ _ true true _
      (List.mem_cons_self _ _) (by decide)).1
  · exact (invalid_range_rejection rsAbort _ _ _ _ _ _ true true _
      (List.mem_cons_self _ _) (by decide)).2.1

theorem diffCount_nil_left (bs : List Str) : diffCount [] bs = bs.length := by
  induction bs with
  | nil => simp [diffCount]
  | cons b bs ih =>
    simp [diffCount, ih]
    omega

theorem diffCount_nil_right (as : List Str) : diffCount as [] = as.length := by
  induction as with
  | nil => simp [diffCount]
  | cons a as ih =>
    simp [diffCount, ih]
    omega

theorem countP_pred_shift (a b : Str) (as bs : List Str) (n : Nat) :
    (List.range n).countP (fun i => (a :: as)[i + 1]? != (b :: bs)[i + 1]?)
      = (List.range n).countP (fun i => as[i]? != bs[i]?) := by
  apply List.countP_congr
  intro i _
  simp

theorem diffCount_eq_countP (as bs : List Str) :
    diffCount as bs
      = (List.range (max as.length bs.length)).countP (fun i => as[i]? != bs[i]?) := by
  induction as generalizing bs with
  | nil =>
    rw [diffCount_nil_left]
    simp only [List.length_nil, Nat.max_eq_right (Nat.zero_le _)]
    rw [List.countP_eq_length.mpr]
    · exact (List.length_range _).symm
    · intro i hi
      rw [List.mem_range] at hi
      simp [List.getElem?_eq_getElem hi]
  | cons a as ih =>
    cases bs with
    | nil =>
      rw [diffCount_nil_right]
      simp only [List.length_nil, List.length_cons, Nat.max_eq_left (Nat.zero_le _)]
      rw [List.countP_eq_length.mpr]
      · exact (List.length_range _).symm
      · intro i hi
        rw [List.mem_range] at hi
        have hi' : i < (a :: as).length := by simpa using hi
        simp [List.getElem?_eq_getElem hi']
    | cons b bs =>
      simp only [diffCount, List.length_cons, Nat.succ_max_succ,
        List.range_succ_eq_map, List.countP_cons, List.countP_map]
      rw [show ((fun i => (a :: as)[i]? != (b :: bs)[i]?) ∘ Nat.succ)
            = (fun i => (a :: as)[i + 1]? != (b :: bs)[i + 1]?) from rfl]
      rw [countP_pred_shift a b as bs]
      rw [ih bs]
      by_cases hab : a = b <;> simp [hab] <;> omega

theorem maybePreview_changed (cfg : DiffPreviewConfig) (lib ans : Bool)
    (before after : Str) :
    (maybePreviewAndConfirmDiff cfg lib ans before after).changed
      = countChangedLines before after := by
  unfold maybePreviewAndConfirmDiff
  dsimp only
  split <;> rfl

/-- C6: the diff-gate decision's changed-line count equals the spec's
count — the number of 0-based positions, up to the longer of the two
line-split sequences, whose lines differ, a missing line counting as
differing — and the decision prompts exactly when preview is enabled,
the count reaches the threshold, and a diff renderer is available;
whenever it does not prompt it auto-proceeds, and when it prompts it
proceeds exactly on a yes.  (In particular, with thresholdLines = 3 a
2-line change auto-proceeds without a prompt and a change of 3 or more
lines prompts.) -/
theorem diff_gate_decision (cfg : DiffPreviewConfig) (lib ans : Bool)
    (before after : Str) :
    (maybePreviewAndConfirmDiff cfg lib ans before after).changed
      = specChangedLines before after
  ∧ (maybePreviewAndConfirmDiff cfg lib ans before after).prompted
      = (cfg.enabled
          && decide (cfg.thresholdLines ≤ (specChangedLines before after : Int))
          && lib)
  ∧ (maybePreviewAndConfirmDiff cfg lib ans before after).proceed
      = (!(maybePreviewAndConfirmDiff cfg lib ans before after).prompted || ans) := by
  have hc : countChangedLines before after = specChangedLines before after := by
    unfold countChangedLines specChangedLines
    exact (diffCount_eq_countP (splitNl before) (splitNl after)).symm
  refine ⟨by rw [maybePreview_changed, hc], ?_, ?_⟩ <;>
  · unfold maybePreviewAndConfirmDiff
    dsimp only
    rw [hc]
    rcases le_or_lt cfg.thresholdLines ((specChangedLines before after : Int)) with h | h <;>
      cases hcfg : cfg.enabled <;> cases lib <;>
        simp [not_le.mpr, h, not_le, decide_eq_true_eq, le_of_lt] <;>
          rw [if_neg (not_lt.mpr h)] <;> simp

theorem isIntegerNum_natCast (n : Nat) : isIntegerNum (n : ℚ) = true := by
  simp [isIntegerNum, Rat.den_natCast]

theorem qToNat_natCast (n : Nat) : qToNat (n : ℚ) = n := by
  simp [qToNat, Rat.num_natCast]

theorem evalOp_replace_range_ok (regexSem : RegexSem) (doc nc : Str) (s e : Nat)
    (h1 : 1 ≤ s) (h2 : s ≤ e) :
    evalOp regexSem doc (.replace_range (s : ℚ) (e : ℚ) nc)
      = .ok (joinNl ((splitNl doc).take (s - 1)
          ++ (if nc.isEmpty then [] else splitNl nc)
          ++ (splitNl doc).drop e)) := by
  have hs1 : ¬((s : ℚ) < 1) := by
    rw [show (1 : ℚ) = ((1 : ℕ) : ℚ) by norm_num, Nat.cast_lt]
    omega
  have hes : ¬((e : ℚ) < (s : ℚ)) := by
    rw [Nat.cast_lt]
    omega
  have hcond : (!(isIntegerNum (s : ℚ)) || !(isIntegerNum (e : ℚ))
      || decide ((s : ℚ) < 1) || decide ((e : ℚ) < (s : ℚ))) = false := by
    simp [isIntegerNum_natCast, hs1, hes]
  unfold evalOp
  simp only [hcond, Bool.false_eq_true, if_false, qToNat_natCast]

/-- C1 (amended): for a valid 1-based range `start ≤ end` within an
N-line document, replace_range yields a document of
`N - (end - start + 1) + M` lines — where M is the number of lines the
code splices in (the line count of newContent, or 0 when newContent is
the empty string, per the `mid.length ? mid.split('\n') : []` special
case at src/gpt.js line 749) — whose lines before `start` and from
position `start-1+M` on are byte-identical to the original lines before
`start` and after `end`; except in the single edge case where the spliced
list is empty (start = 1, end = N and empty newContent), in which the
result is the empty document, which splits as one empty line rather than
the claimed zero lines (the counterexample). -/
theorem replace_range_invariant (regexSem : RegexSem) (doc nc : Str)
    (s e : Nat) (h1 : 1 ≤ s) (h2 : s ≤ e) (h3 : e ≤ (splitNl doc).length)
    (hedge : ¬(s = 1 ∧ e = (splitNl doc).length ∧ nc = [])) :
    ∃ r, applyOps regexSem [PatchOp.replace_range (s : ℚ) (e : ℚ) nc] doc
          = Except.ok r
      ∧ (splitNl r).length = (splitNl doc).length - (e - s + 1)
          + (if nc = [] then 0 else (splitNl nc).length)
      ∧ (splitNl r).take (s - 1) = (splitNl doc).take (s - 1)
      ∧ (splitNl r).drop (s - 1 + (if nc = [] then 0 else (splitNl nc).length))
          = (splitNl doc).drop e := by
  have hLpos : 0 < (splitNl doc).length := List.length_pos.mpr (splitNl_ne_nil doc)
  have hM : (if nc.isEmpty then ([] : List Str) else splitNl nc).length
      = (if nc = [] then 0 else (splitNl nc).length) := by
    by_cases hnc : nc = []
    · simp [hnc]
    · simp [hnc, List.isEmpty_iff]
  have hpre_len : ((splitNl doc).take (s - 1)).length = s - 1 := by
    rw [List.length_take]
    omega
  have hpost_len : ((splitNl doc).drop e).length = (splitNl doc).length - e :=
    List.length_drop e (splitNl doc)
  have hnl : ∀ l ∈ (splitNl doc).take (s - 1)
      ++ (if nc.isEmpty then ([] : List Str) else splitNl nc)
      ++ (splitNl doc).drop e, '\n' ∉ l := by
    intro l hl
    rcases List.mem_append.mp hl with hl | hl
    · rcases List.mem_append.mp hl with hl | hl
      · exact noNl_of_mem_splitNl doc l (List.take_subset _ _ hl)
      · by_cases hnc : nc.isEmpty
        · rw [if_pos hnc] at hl
          cases hl
        · rw [if_neg hnc] at hl
          exact noNl_of_mem_splitNl nc l hl
    · exact noNl_of_mem_splitNl doc l (List.drop_subset _ _ hl)
  have hne : (splitNl doc).take (s - 1)
      ++ (if nc.isEmpty then ([] : List Str) else splitNl nc)
      ++ (splitNl doc).drop e ≠ [] := by
    intro h0
    rcases List.append_eq_nil.mp h0 with ⟨h01, h02⟩
    rcases List.append_eq_nil.mp h01 with ⟨hpre, hmid0⟩
    have hs1 : s = 1 := by
      have := congrArg List.length hpre
      rw [hpre_len] at this
      simp at this
      omega
    have he1 : e = (splitNl doc).length := by
      have := congrArg List.length h02
      rw [hpost_len] at this
      simp at this
      omega
    have hnc : nc = [] := by
      by_cases hnc : nc.isEmpty
      · exact List.isEmpty_iff.mp hnc
      · rw [if_neg hnc] at hmid0
        exact absurd hmid0 (splitNl_ne_nil nc)
    exact hedge ⟨hs1, he1, hnc⟩
  have hsplit : splitNl (joinNl ((splitNl doc).take (s - 1)
      ++ (if nc.isEmpty then ([] : List Str) else splitNl nc)
      ++ (splitNl doc).drop e))
      = (splitNl doc).take (s - 1)
        ++ (if nc.isEmpty then ([] : List Str) else splitNl nc)
        ++ (splitNl doc).drop e :=
    splitNl_joinNl _ hne hnl
  refine ⟨joinNl ((splitNl doc).take (s - 1)
      ++ (if nc.isEmpty then ([] : List Str) else splitNl nc)
      ++ (splitNl doc).drop e), ?_, ?_, ?_, ?_⟩
  · unfold applyOps
    rw [evalOp_replace_range_ok regexSem doc nc s e h1 h2]
    rfl
  · rw [hsplit]
    simp only [List.length_append, hpre_len, hpost_len, hM]
    by_cases hnc : nc = [] <;> simp [hnc] <;> omega
  · rw [hsplit, List.append_assoc]
    rw [List.take_left' hpre_len]
  · rw [hsplit]
    rw [List.drop_left']
    rw [List.length_append, hpre_len, hM]

/-- C1 counterexample: the claimed line count fails at the edge.  With
the code's own splice count M (0 for empty newContent), replacing the
single line of the one-line document "a" by the empty string yields the
empty document, which splits into 1 line, not the claimed
N - (end-start+1) + M = 0.  Under the alternative reading where the
empty string counts as one line (M = 1), replacing line 2 of the 3-line
document "a\nb\nc" with the empty string yields "a\nc" with 2 lines,
not the claimed 3. -/
theorem replace_range_invariant_cex :
    applyOps rsAbort [PatchOp.replace_range 1 1 []] ['a'] = Except.ok []
  ∧ (splitNl ([] : Str)).length = 1
  ∧ (splitNl ['a']).length - (1 - 1 + 1) + 0 = 0
  ∧ applyOps rsAbort [PatchOp.replace_range 2 2 []] ['a', '\n', 'b', '\n', 'c']
      = Except.ok ['a', '\n', 'c']
  ∧ (splitNl ['a', '\n', 'c']).length = 2
  ∧ (splitNl ['a', '\n', 'b', '\n', 'c']).length - (2 - 2 + 1)
      + (splitNl ([] : Str)).length = 3 := by
  exact ⟨rfl, rfl, rfl, rfl, rfl, rfl⟩

/-- C1 witness: replacing line 2 of the 3-line document "a\nb\nc" with
the single line "X" keeps 3 lines, with line 1 and line 3 preserved. -/
theorem replace_range_invariant_witness :
    (1 ≤ 2 ∧ 2 ≤ 2 ∧ 2 ≤ (splitNl ['a', '\n', 'b', '\n', 'c']).length
      ∧ ¬(2 = 1 ∧ 2 = (splitNl ['a', '\n', 'b', '\n', 'c']).length ∧ (['X'] : Str) = []))
  ∧ (∃ r, applyOps rsAbort
        [PatchOp.replace_range ((2 : ℕ) : ℚ) ((2 : ℕ) : ℚ) ['X']]
        ['a', '\n', 'b', '\n', 'c'] = Except.ok r
      ∧ (splitNl r).length = (splitNl ['a', '\n', 'b', '\n', 'c']).length - (2 - 2 + 1)
          + (if (['X'] : Str) = [] then 0 else (splitNl ['X']).length)
      ∧ (splitNl r).take (2 - 1) = (splitNl ['a', '\n', 'b', '\n', 'c']).take (2 - 1)
      ∧ (splitNl r).drop (2 - 1 + (if (['X'] : Str) = [] then 0 else (splitNl ['X']).length))
          = (splitNl ['a', '\n', 'b', '\n', 'c']).drop 2) :=
  ⟨⟨by decide, by decide, by decide, by decide⟩,
   replace_range_invariant rsAbort ['a', '\n', 'b', '\n', 'c'] ['X'] 2 2
     (by decide) (by decide) (by decide) (by decide)⟩
